import Mathlib

/-!
Verification of the real-time voice session core of the repository
(`src/components/VoiceView.tsx`, which bundles the `VoiceView` component,
the `App` shell and the `useLiveSession` hook).  Times and samples are
modelled as rationals, JavaScript objects in the scheduled `Set` are
identified by ghost natural-number ids, and the observable side effects of
each operation (node starts and stops, resource acquisition and release)
are returned as an explicit action list.  Each callback of the hook is
translated into a pure state-transition function and the event-driven
session is the reflexive-transitive closure of those transitions.
-/

set_option maxHeartbeats 1000000

namespace RoseVoice

/-! ## PCM codec (`utils/audio`)

The repository imports `createPcmBlob`, `decodeBase64` and `decodeAudioData`
from `../utils/audio`, a file that is not part of the sources; the
definitions below are therefore modelled from the specification (§4.1,
§4.2).  The lossless base64 textual wrapper is elided: payloads are the
raw byte lists it transports. -/

/-- Modelled from the spec (§4.1): a sample is clamped to the interval
[-1, 1] before scaling. -/
def clampSample (x : ℚ) : ℚ := max (-1) (min 1 x)

/-- Modelled from the spec (§4.1): a clamped sample is scaled to the signed
16-bit range [-32768, 32767]. -/
def quantize (x : ℚ) : ℤ :=
  max (-32768) (min 32767 ⌊clampSample x * 32768⌋)

/-- Two's-complement byte representation of a 16-bit signed integer. -/
def toTwos (i : ℤ) : Nat := (i % 65536).toNat

/-- Modelled from the spec (§4.1): one sample becomes two bytes,
little-endian. -/
def encodeSample (x : ℚ) : List Nat :=
  [toTwos (quantize x) % 256, toTwos (quantize x) / 256]

/-- Modelled from the spec (§4.1): `createPcmBlob` (used at
`VoiceView.tsx:431`) encodes a frame of samples as 16-bit signed
little-endian PCM bytes. -/
def createPcmBlob (samples : List ℚ) : List Nat :=
  (samples.map encodeSample).flatten

/-- Reinterpret two little-endian bytes as a signed 16-bit integer. -/
def int16OfLe (lo hi : Nat) : ℤ :=
  let n : Nat := lo % 256 + 256 * (hi % 256)
  if n < 32768 then (n : ℤ) else (n : ℤ) - 65536

/-- Group a byte list into little-endian 16-bit signed integers. -/
def decodePairs : List Nat → List ℤ
  | lo :: hi :: rest => int16OfLe lo hi :: decodePairs rest
  | _ => []

/-- Modelled from the spec (§4.2): `decodeAudioData` (used at
`VoiceView.tsx:452`) reinterprets every 2 bytes as a little-endian signed
16-bit integer normalized to [-1, 1]; it fails when the byte length is not
a multiple of 2. -/
def decodeAudioData (bytes : List Nat) : Option (List ℚ) :=
  if bytes.length % 2 = 0 then
    some ((decodePairs bytes).map (fun i : ℤ => (i : ℚ) / 32768))
  else none

/-- Duration in seconds of a decoded buffer at the 24000 Hz output rate
(`audioBuffer.duration` for a mono buffer decoded at `VoiceView.tsx:452`). -/
def bufferDuration (samples : List ℚ) : ℚ := (samples.length : ℚ) / 24000

/-- Duration a valid (even-length) byte chunk decodes to. -/
def chunkDuration (bytes : List Nat) : ℚ := ((bytes.length / 2 : ℕ) : ℚ) / 24000

/-! ## Session state (`useLiveSession`) -/

/-- One `AudioBufferSourceNode` held in `scheduledSourcesRef`
(`VoiceView.tsx:318`): a ghost identity, the time passed to `start` and the
buffer duration. -/
structure SourceNode where
  id : Nat
  start : ℚ
  duration : ℚ
  deriving DecidableEq

/-- The mutable state of `useLiveSession` (`VoiceView.tsx:300-322`): the
React state cells and every ref.  Opaque browser handles (contexts,
analysers, stream, nodes) are modelled by their presence (`true`) or
absence (`null`, `false`); `nextNodeId` is a ghost counter naming the
JavaScript object identities of created source nodes. -/
structure SessionState where
  isConnected : Bool
  isSpeaking : Bool
  volume : ℚ
  error : Option String
  nextStartTime : ℚ
  scheduledSources : List SourceNode
  nextNodeId : Nat
  inputContext : Bool
  outputContext : Bool
  scriptProcessor : Bool
  sourceNode : Bool
  audioStream : Bool
  inputAnalyser : Bool
  outputAnalyser : Bool
  deriving DecidableEq

/-- The initial hook state: every React state cell at its initial value and
every ref `null` (`VoiceView.tsx:300-322`). -/
def initialState : SessionState :=
  { isConnected := false
    isSpeaking := false
    volume := 0
    error := none
    nextStartTime := 0
    scheduledSources := []
    nextNodeId := 0
    inputContext := false
    outputContext := false
    scriptProcessor := false
    sourceNode := false
    audioStream := false
    inputAnalyser := false
    outputAnalyser := false }

/-- Observable side effects of the session operations: calls on browser
handles (starts and stops of playback nodes, resource acquisition and
release). -/
inductive Action where
  | startNode (id : Nat) (start duration : ℚ)
  | stopNode (id : Nat)
  | stopTracks
  | disconnectProcessor
  | disconnectSource
  | closeInputCtx
  | closeOutputCtx
  | createInputCtx
  | createOutputCtx
  | getUserMedia
  deriving DecidableEq

/-- The `cleanup` callback (`VoiceView.tsx:324-359`): disconnect the
processor and source node, stop the stream tracks, stop every scheduled
source (the source wraps each `stop` in try/catch, so the function is
total), close both contexts, null every ref, and reset the React state.
`error` is not touched by `cleanup`. -/
def cleanup (s : SessionState) : SessionState × List Action :=
  ({ s with
      scriptProcessor := false
      sourceNode := false
      audioStream := false
      scheduledSources := []
      inputContext := false
      outputContext := false
      inputAnalyser := false
      outputAnalyser := false
      isConnected := false
      isSpeaking := false
      volume := 0
      nextStartTime := 0 },
   (if s.scriptProcessor then [Action.disconnectProcessor] else [])
   ++ (if s.sourceNode then [Action.disconnectSource] else [])
   ++ (if s.audioStream then [Action.stopTracks] else [])
   ++ s.scheduledSources.map (fun n => Action.stopNode n.id)
   ++ (if s.inputContext then [Action.closeInputCtx] else [])
   ++ (if s.outputContext then [Action.closeOutputCtx] else []))

/-- The `connect` callback up to the opening of the remote session
(`VoiceView.tsx:361-389`): fail fast when no API key is configured
(lines 362-365); otherwise clear the error, create both contexts with
their analysers, and request the microphone.  `deviceGranted` is the
externally determined outcome of `getUserMedia`; on rejection the catch
block (lines 510-514) records an error message and runs `cleanup`. -/
def connect (apiKey : Option String) (deviceGranted : Bool)
    (s : SessionState) : SessionState × List Action :=
  match apiKey with
  | none => ({ s with error := some "API Key missing" }, [])
  | some _ =>
    let s1 := { s with
      error := none
      inputContext := true
      inputAnalyser := true
      outputContext := true
      outputAnalyser := true }
    let acquired := [Action.createInputCtx, Action.createOutputCtx, Action.getUserMedia]
    if deviceGranted then
      ({ s1 with audioStream := true }, acquired)
    else
      let s2 := { s1 with error := some "Failed to connect microphone" }
      ((cleanup s2).1, acquired ++ (cleanup s2).2)

/-- The `onopen` callback (`VoiceView.tsx:403-441`): mark connected, then
(when the input context and the stream still exist) install the media
source node and the script processor. -/
def onopen (s : SessionState) : SessionState :=
  let s1 := { s with isConnected := true }
  if s1.inputContext ∧ s1.audioStream then
    { s1 with sourceNode := true, scriptProcessor := true }
  else s1

/-- Squared-sample sum computed by the loop at `VoiceView.tsx:424-427`. -/
def sumSquares (l : List ℚ) : ℚ := (l.map (fun x => x * x)).sum

/-- The volume update of `processor.onaudioprocess`
(`VoiceView.tsx:420-429`): `setVolume(prev => Math.max(0.1, prev * 0.8 +
rms * 2))`, where `rms` is the root mean square of the captured block. -/
def onaudioprocess (s : SessionState) (rms : ℚ) : SessionState :=
  { s with volume := max (1/10) (s.volume * (8/10) + rms * 2) }

/-- The audio branch of `callbacks.onmessage` (`VoiceView.tsx:446-481`),
entered when the message carries audio and the output context exists:
mark speaking, clamp the timeline to the current output clock, decode;
on success start a node at the clamped time, add it to the scheduled set
and advance the timeline by the buffer duration; a decode failure is
caught and logged (lines 479-481), leaving only the first two updates. -/
def handleAudio (s : SessionState) (bytes : List Nat) (now : ℚ) :
    SessionState × List Action :=
  let s1 := { s with isSpeaking := true, nextStartTime := max s.nextStartTime now }
  match decodeAudioData bytes with
  | none => (s1, [])
  | some samples =>
    let node : SourceNode :=
      { id := s.nextNodeId, start := s1.nextStartTime, duration := bufferDuration samples }
    ({ s1 with
        scheduledSources := s1.scheduledSources ++ [node]
        nextStartTime := s1.nextStartTime + bufferDuration samples
        nextNodeId := s.nextNodeId + 1 },
     [Action.startNode node.id node.start node.duration])

/-- The interruption branch of `callbacks.onmessage`
(`VoiceView.tsx:484-492`): stop every scheduled source (each `stop`
wrapped in try/catch, so already-stopped nodes are benign), clear the
set, reset the timeline to zero and mark not speaking. -/
def interruptPlayback (s : SessionState) : SessionState × List Action :=
  ({ s with scheduledSources := [], nextStartTime := 0, isSpeaking := false },
   s.scheduledSources.map (fun n => Action.stopNode n.id))

/-- A `LiveServerMessage` as read by `onmessage` (`VoiceView.tsx:443-444,
484`): an optional audio payload (given as the bytes its base64 data
decodes to; the empty string is falsy, hence an empty byte list never
enters the audio branch) and the `interrupted` flag. -/
structure ServerMessage where
  audioData : Option (List Nat)
  interrupted : Bool
  deriving DecidableEq

/-- The `onmessage` callback (`VoiceView.tsx:443-492`): the audio branch
runs first (guarded by the truthiness of the base64 data and the presence
of the output context), then the interruption branch. -/
def onmessage (s : SessionState) (msg : ServerMessage) (now : ℚ) :
    SessionState × List Action :=
  let sa := match msg.audioData with
    | some bytes =>
      if bytes ≠ [] ∧ s.outputContext = true then handleAudio s bytes now
      else (s, [])
    | none => (s, [])
  if msg.interrupted then
    ((interruptPlayback sa.1).1, sa.2 ++ (interruptPlayback sa.1).2)
  else sa

/-- The `ended` listener registered on each source
(`VoiceView.tsx:469-474`): delete the node from the scheduled set and,
when the set becomes empty, mark not speaking. -/
def onended (s : SessionState) (nid : Nat) : SessionState :=
  let rest := s.scheduledSources.filter (fun n => n.id ≠ nid)
  { s with
      scheduledSources := rest
      isSpeaking := if rest.isEmpty then false else s.isSpeaking }

/-! ## Event system and reachable states -/

/-- The externally triggered events that drive `useLiveSession`: the user
calling `connect` (with the configured API key and the outcome of the
microphone request) or `disconnect`, and the registered callbacks
(`onopen`, `onmessage` at an output-clock instant, a captured audio block,
a node `ended` event, `onclose`, `onerror`). -/
inductive Event where
  | connectEvt (apiKey : Option String) (deviceGranted : Bool)
  | openEvt
  | messageEvt (msg : ServerMessage) (now : ℚ)
  | audioBlock (samples : List ℚ) (rms : ℚ)
  | endedEvt (nodeId : Nat)
  | closeEvt
  | errorEvt
  | disconnectEvt

/-- State transition of one event.  `onclose` runs `cleanup`
(`VoiceView.tsx:494-497`); `onerror` records a user-visible error and then
runs `cleanup` (lines 498-502); `disconnect` is `cleanup` itself
(line 522). -/
def step (s : SessionState) : Event → SessionState
  | .connectEvt k g => (connect k g s).1
  | .openEvt => onopen s
  | .messageEvt m t => (onmessage s m t).1
  | .audioBlock _ rms => onaudioprocess s rms
  | .endedEvt n => onended s n
  | .closeEvt => (cleanup s).1
  | .errorEvt => (cleanup { s with error := some "Connection error. Please try again." }).1
  | .disconnectEvt => (cleanup s).1

/-- Side conditions under which an event can fire: the capture callback
only runs while the script processor exists, its block has the fixed size
4096 (`VoiceView.tsx:417`), device samples lie in [-1, 1], and the `rms`
parameter is the root mean square actually computed from the block
(lines 424-428); the output clock of a message is nonnegative. -/
def EventOk (s : SessionState) : Event → Prop
  | .audioBlock samples rms =>
      s.scriptProcessor = true ∧ 0 ≤ rms ∧
      rms * rms * (samples.length : ℚ) = sumSquares samples ∧
      samples.length = 4096 ∧ ∀ x ∈ samples, -1 ≤ x ∧ x ≤ 1
  | .messageEvt _ now => 0 ≤ now
  | _ => True

/-- States the session can reach from the initial hook state through the
event system. -/
inductive Reachable : SessionState → Prop
  | init : Reachable initialState
  | succ {s : SessionState} {e : Event} :
      Reachable s → EventOk s e → Reachable (step s e)

/-! ## Scheduling drivers -/

/-- Deliver a sequence of audio-only messages, each given as a decoded
byte payload together with the output-clock reading at its arrival, and
collect the emitted actions. -/
def enqueueAll (s : SessionState) : List (List Nat × ℚ) → SessionState × List Action
  | [] => (s, [])
  | (bytes, now) :: rest =>
    let one := onmessage s { audioData := some bytes, interrupted := false } now
    let more := enqueueAll one.1 rest
    (more.1, one.2 ++ more.2)

/-- The (start, duration) pairs of the node starts among a list of
actions. -/
def startsOf (acts : List Action) : List (ℚ × ℚ) :=
  acts.filterMap (fun a => match a with
    | .startNode _ st d => some (st, d)
    | _ => none)

/-- Every chunk arrives while the output clock still lags the evolving
timeline: the arrival clock reading of each chunk is at most the value
`nextStartTime` holds when that chunk is processed. -/
def arrivesEarly (nst : ℚ) : List (List Nat × ℚ) → Bool
  | [] => true
  | (bytes, now) :: rest =>
    decide (now ≤ nst) && arrivesEarly (nst + chunkDuration bytes) rest

/-- The gapless back-to-back schedule that starts at `nst`: each chunk
begins exactly where the previous one ends. -/
def backToBack (nst : ℚ) : List (List Nat × ℚ) → List (ℚ × ℚ)
  | [] => []
  | (bytes, _) :: rest =>
    (nst, chunkDuration bytes) :: backToBack (nst + chunkDuration bytes) rest

/-! ## Visual renderer (`VoiceView.tsx:31-176`) -/

/-- Failure of the canvas drawing work of one visualizer tick (spec §7,
`RenderError`). -/
inductive RenderError where
  | tick
  deriving DecidableEq

/-- Frequency-band totals computed by the loop at `VoiceView.tsx:55-66`:
bins below 10% of the range feed bass, bins below 50% feed mids, the rest
feed treble; each sum is then divided by the size of its band. -/
def bandAverages (data : List Nat) : ℚ × ℚ × ℚ :=
  if data.length = 0 then (0, 0, 0) else
    let range : ℚ := (data.length : ℚ)
    let t := data.enum.foldl (fun (acc : ℚ × ℚ × ℚ) p =>
      if (p.1 : ℚ) < range * (1/10) then (acc.1 + (p.2 : ℚ), acc.2.1, acc.2.2)
      else if (p.1 : ℚ) < range * (5/10) then (acc.1, acc.2.1 + (p.2 : ℚ), acc.2.2)
      else (acc.1, acc.2.1, acc.2.2 + (p.2 : ℚ))) (0, 0, 0)
    (t.1 / (range * (1/10)), t.2.1 / (range * (4/10)), t.2.2 / (range * (5/10)))

/-- One invocation of `render` (`VoiceView.tsx:31-172`): the band
computation is pure, the canvas drawing may throw (its outcome is the
external `draw` argument), and `animationRef.current =
requestAnimationFrame(render)` is the final statement of the body with no
surrounding try/catch, so the next frame is requested only when the
drawing work ran to completion.  The successful result reports the band
averages together with the fact that the next frame was scheduled. -/
def renderTick (data : List Nat) (draw : Except RenderError Unit) :
    Except RenderError ((ℚ × ℚ × ℚ) × Bool) :=
  match draw with
  | .ok _ => .ok (bandAverages data, true)
  | .error e => .error e

/-- Run the render loop against a stream of per-tick drawing outcomes and
count how many ticks execute: after a successful tick the next frame is
requested and the loop continues; an escaped exception leaves no frame
request behind and the loop is dead. -/
def renderLoop (data : List Nat) : List (Except RenderError Unit) → Nat
  | [] => 0
  | d :: rest =>
    match renderTick data d with
    | .ok _ => 1 + renderLoop data rest
    | .error _ => 1

/-! ## Derived schedule projection and concrete trace states -/

/-- The (start, duration) pairs the scheduler emits, as a function of the
timeline position alone: the audio branch is skipped on a falsy payload,
advances the clamped timeline on a valid chunk, and leaves only the clamp
behind on a corrupt chunk. -/
def scheduleStarts (nst : ℚ) : List (List Nat × ℚ) → List (ℚ × ℚ)
  | [] => []
  | (bytes, now) :: rest =>
    if bytes = [] then scheduleStarts nst rest
    else if bytes.length % 2 = 0 then
      (max nst now, chunkDuration bytes)
        :: scheduleStarts (max nst now + chunkDuration bytes) rest
    else scheduleStarts (max nst now) rest

/-- The connected state used by the concrete traces below: a connect with
a configured key and a granted microphone followed by the open callback. -/
def openState : SessionState :=
  step (step initialState (Event.connectEvt (some "k") true)) Event.openEvt

/-- The open state after a message carrying a corrupt (odd-length) audio
chunk: the decode fails, the speaking flag is already raised, nothing was
scheduled. -/
def corruptChunkState : SessionState :=
  step openState (Event.messageEvt { audioData := some [0], interrupted := false } 0)

/-- The open state after a message carrying one valid audio chunk: one
node is scheduled and the speaking flag is raised. -/
def speakingState : SessionState :=
  step openState (Event.messageEvt { audioData := some [0, 0], interrupted := false } 0)

/-- A captured block of 4096 full-scale samples from the open state: its
RMS is exactly 1 and the volume estimate jumps to 2. -/
def loudState : SessionState :=
  step openState (Event.audioBlock (List.replicate 4096 1) 1)

/-! ## Decoder facts -/

theorem decodePairs_length : ∀ l : List Nat, (decodePairs l).length = l.length / 2
  | [] => by simp [decodePairs]
  | [_] => by simp [decodePairs]
  | _ :: _ :: rest => by
    simp [decodePairs, decodePairs_length rest]
    omega

theorem decodeAudioData_even {bytes : List Nat} (h : bytes.length % 2 = 0) :
    decodeAudioData bytes = some ((decodePairs bytes).map (fun i : ℤ => (i : ℚ) / 32768)) := by
  simp [decodeAudioData, h]

theorem decodeAudioData_odd {bytes : List Nat} (h : bytes.length % 2 = 1) :
    decodeAudioData bytes = none := by
  simp [decodeAudioData]
  omega

theorem decoded_duration {bytes : List Nat} :
    bufferDuration ((decodePairs bytes).map (fun i : ℤ => (i : ℚ) / 32768))
      = chunkDuration bytes := by
  unfold bufferDuration chunkDuration
  rw [List.length_map, decodePairs_length]

/-- Shape of the audio branch on a valid (even-length) chunk. -/
theorem handleAudio_even (s : SessionState) (bytes : List Nat) (now : ℚ)
    (hev : bytes.length % 2 = 0) :
    handleAudio s bytes now =
      ({ s with
          isSpeaking := true
          scheduledSources := s.scheduledSources ++
            [{ id := s.nextNodeId, start := max s.nextStartTime now,
               duration := chunkDuration bytes }]
          nextStartTime := max s.nextStartTime now + chunkDuration bytes
          nextNodeId := s.nextNodeId + 1 },
       [Action.startNode s.nextNodeId (max s.nextStartTime now) (chunkDuration bytes)]) := by
  unfold handleAudio
  rw [decodeAudioData_even hev]
  dsimp only
  rw [decoded_duration]

/-- Shape of the audio branch on a corrupt (odd-length) chunk: the error is
caught, only the speaking flag and the clock clamp remain. -/
theorem handleAudio_odd (s : SessionState) (bytes : List Nat) (now : ℚ)
    (hodd : bytes.length % 2 = 1) :
    handleAudio s bytes now =
      ({ s with isSpeaking := true, nextStartTime := max s.nextStartTime now }, []) := by
  unfold handleAudio
  rw [decodeAudioData_odd hodd]

/-! ## Claim C2 -/

theorem count_ite_self (b : Prop) [Decidable b] (x : Action) :
    List.count x (if b then [x] else []) ≤ 1 := by
  split <;> simp

theorem count_ite_ne {a x : Action} (b : Prop) [Decidable b] (h : a ≠ x) :
    List.count a (if b then [x] else []) = 0 := by
  split <;> simp [List.count_cons, h]

theorem count_stop_map_ne (a : Action) (srcs : List SourceNode)
    (h : ∀ i : Nat, a ≠ Action.stopNode i) :
    List.count a (srcs.map (fun n => Action.stopNode n.id)) = 0 := by
  rw [List.count_eq_zero]
  intro hmem
  obtain ⟨n, _, he⟩ := List.mem_map.mp hmem
  exact h n.id he.symm

/-- Claim C2: `cleanup` is idempotent — run twice in a row it performs no
further releases and leaves exactly the state one run leaves; run on the
idle initial state it is a no-op releasing nothing; and in any one run
each singleton resource (processor, source node, stream, the two
contexts) is released at most once. -/
theorem C2_cleanup_idempotent (s : SessionState) :
    (cleanup (cleanup s).1).1 = (cleanup s).1 ∧
    (cleanup (cleanup s).1).2 = [] ∧
    cleanup initialState = (initialState, []) ∧
    (cleanup s).2.count Action.disconnectProcessor ≤ 1 ∧
    (cleanup s).2.count Action.disconnectSource ≤ 1 ∧
    (cleanup s).2.count Action.stopTracks ≤ 1 ∧
    (cleanup s).2.count Action.closeInputCtx ≤ 1 ∧
    (cleanup s).2.count Action.closeOutputCtx ≤ 1 := by
  refine ⟨rfl, rfl, rfl, ?_, ?_, ?_, ?_, ?_⟩ <;>
  · simp only [cleanup, List.count_append]
    have h1 := count_ite_self (s.scriptProcessor = true) Action.disconnectProcessor
    have h2 := count_ite_self (s.sourceNode = true) Action.disconnectSource
    have h3 := count_ite_self (s.audioStream = true) Action.stopTracks
    have h5 := count_ite_self (s.inputContext = true) Action.closeInputCtx
    have h6 := count_ite_self (s.outputContext = true) Action.closeOutputCtx
    first
    | (have z2 := count_ite_ne (a := Action.disconnectProcessor)
          (s.sourceNode = true) (x := Action.disconnectSource) (by intro h; cases h)
       have z3 := count_ite_ne (a := Action.disconnectProcessor)
          (s.audioStream = true) (x := Action.stopTracks) (by intro h; cases h)
       have z4 := count_stop_map_ne Action.disconnectProcessor s.scheduledSources
          (by intro i h; cases h)
       have z5 := count_ite_ne (a := Action.disconnectProcessor)
          (s.inputContext = true) (x := Action.closeInputCtx) (by intro h; cases h)
       have z6 := count_ite_ne (a := Action.disconnectProcessor)
          (s.outputContext = true) (x := Action.closeOutputCtx) (by intro h; cases h)
       omega)
    | (have z1 := count_ite_ne (a := Action.disconnectSource)
          (s.scriptProcessor = true) (x := Action.disconnectProcessor) (by intro h; cases h)
       have z3 := count_ite_ne (a := Action.disconnectSource)
          (s.audioStream = true) (x := Action.stopTracks) (by intro h; cases h)
       have z4 := count_stop_map_ne Action.disconnectSource s.scheduledSources
          (by intro i h; cases h)
       have z5 := count_ite_ne (a := Action.disconnectSource)
          (s.inputContext = true) (x := Action.closeInputCtx) (by intro h; cases h)
       have z6 := count_ite_ne (a := Action.disconnectSource)
          (s.outputContext = true) (x := Action.closeOutputCtx) (by intro h; cases h)
       omega)
    | (have z1 := count_ite_ne (a := Action.stopTracks)
          (s.scriptProcessor = true) (x := Action.disconnectProcessor) (by intro h; cases h)
       have z2 := count_ite_ne (a := Action.stopTracks)
          (s.sourceNode = true) (x := Action.disconnectSource) (by intro h; cases h)
       have z4 := count_stop_map_ne Action.stopTracks s.scheduledSources
          (by intro i h; cases h)
       have z5 := count_ite_ne (a := Action.stopTracks)
          (s.inputContext = true) (x := Action.closeInputCtx) (by intro h; cases h)
       have z6 := count_ite_ne (a := Action.stopTracks)
          (s.outputContext = true) (x := Action.closeOutputCtx) (by intro h; cases h)
       omega)
    | (have z1 := count_ite_ne (a := Action.closeInputCtx)
          (s.scriptProcessor = true) (x := Action.disconnectProcessor) (by intro h; cases h)
       have z2 := count_ite_ne (a := Action.closeInputCtx)
          (s.sourceNode = true) (x := Action.disconnectSource) (by intro h; cases h)
       have z3 := count_ite_ne (a := Action.closeInputCtx)
          (s.audioStream = true) (x := Action.stopTracks) (by intro h; cases h)
       have z4 := count_stop_map_ne Action.closeInputCtx s.scheduledSources
          (by intro i h; cases h)
       have z6 := count_ite_ne (a := Action.closeInputCtx)
          (s.outputContext = true) (x := Action.closeOutputCtx) (by intro h; cases h)
       omega)
    | (have z1 := count_ite_ne (a := Action.closeOutputCtx)
          (s.scriptProcessor = true) (x := Action.disconnectProcessor) (by intro h; cases h)
       have z2 := count_ite_ne (a := Action.closeOutputCtx)
          (s.sourceNode = true) (x := Action.disconnectSource) (by intro h; cases h)
       have z3 := count_ite_ne (a := Action.closeOutputCtx)
          (s.audioStream = true) (x := Action.stopTracks) (by intro h; cases h)
       have z4 := count_stop_map_ne Action.closeOutputCtx s.scheduledSources
          (by intro i h; cases h)
       have z5 := count_ite_ne (a := Action.closeOutputCtx)
          (s.inputContext = true) (x := Action.closeInputCtx) (by intro h; cases h)
       omega)

/-! ## Claim C6 -/

/-- Claim C6: `connect` with no API key configured records the error
string "API Key missing", changes nothing else (in particular the
connection stays in its prior state, Idle included), and performs no
resource acquisition: the microphone is never requested. -/
theorem C6_connect_no_key (s : SessionState) (g : Bool) :
    connect none g s = ({ s with error := some "API Key missing" }, []) ∧
    Action.getUserMedia ∉ (connect none g s).2 := by
  exact ⟨rfl, by simp [connect]⟩

/-! ## Claim C9 -/

/-- Claim C9 is refuted by the code: in `render` the reschedule
`animationRef.current = requestAnimationFrame(render)` is the last
statement of a body with no try/catch, so a tick that throws never
requests the next frame and the loop dies.  With a first tick that throws
and a second that would succeed, only one tick executes out of two. -/
theorem C9_render_loop_dies :
    renderLoop [] [Except.error RenderError.tick, Except.ok ()] = 1 ∧
    [Except.error RenderError.tick, Except.ok ()].length = 2 := by
  decide

/-! ## Claim C3 -/

/-- Reduction of `onmessage` on an audio-only message whose payload is
truthy while the output context exists. -/
theorem onmessage_audio (s : SessionState) (bytes : List Nat) (now : ℚ)
    (hne : bytes ≠ []) (hctx : s.outputContext = true) :
    onmessage s { audioData := some bytes, interrupted := false } now
      = handleAudio s bytes now := by
  simp only [onmessage]
  rw [if_pos (show bytes ≠ [] ∧ s.outputContext = true from ⟨hne, hctx⟩)]
  simp

/-- Reduction of `onmessage` on a message that carries both a truthy audio
payload and the interruption flag. -/
theorem onmessage_audio_interrupt (s : SessionState) (bytes : List Nat) (now : ℚ)
    (hne : bytes ≠ []) (hctx : s.outputContext = true) :
    onmessage s { audioData := some bytes, interrupted := true } now
      = ((interruptPlayback (handleAudio s bytes now).1).1,
         (handleAudio s bytes now).2 ++ (interruptPlayback (handleAudio s bytes now).1).2) := by
  simp only [onmessage]
  rw [if_pos (show bytes ≠ [] ∧ s.outputContext = true from ⟨hne, hctx⟩)]
  simp

/-- Claim C3: an `interrupted` message empties the scheduled set after a
stop was issued for every node in it (already-stopped ones tolerated by
the try/catch), flips speaking false and resets the timeline to zero, in
any prior state; a following enqueue at any nonnegative output-clock
instant is scheduled at that clock instant, not at the old timeline
position. -/
theorem C3_interrupt_resets (s : SessionState) (now : ℚ) :
    (onmessage s { audioData := none, interrupted := true } now).1.scheduledSources = [] ∧
    (onmessage s { audioData := none, interrupted := true } now).1.isSpeaking = false ∧
    (onmessage s { audioData := none, interrupted := true } now).1.nextStartTime = 0 ∧
    (onmessage s { audioData := none, interrupted := true } now).2
      = s.scheduledSources.map (fun n => Action.stopNode n.id) ∧
    (∀ (bytes : List Nat) (t : ℚ), s.outputContext = true → bytes ≠ [] →
      bytes.length % 2 = 0 → 0 ≤ t →
      startsOf (onmessage (onmessage s { audioData := none, interrupted := true } now).1
          { audioData := some bytes, interrupted := false } t).2
        = [(t, chunkDuration bytes)]) := by
  refine ⟨rfl, rfl, rfl, rfl, ?_⟩
  intro bytes t hctx hne hev ht
  have hstate : (onmessage s { audioData := none, interrupted := true } now).1
      = { s with scheduledSources := [], nextStartTime := 0, isSpeaking := false } := rfl
  rw [hstate,
      onmessage_audio { s with scheduledSources := [], nextStartTime := 0, isSpeaking := false }
        bytes t hne hctx,
      handleAudio_even _ _ _ hev]
  simp [startsOf, max_eq_right ht]

/-! ## Claim C10 -/

/-- Claim C10: a single message carrying both audio and `interrupted:
true` runs the audio branch first and the interruption branch second: the
emitted effects are the start of the new node followed by stops of every
node then scheduled (the new one included), and the handler ends with the
set empty, speaking false and the timeline reset to zero. -/
theorem C10_audio_then_interrupt (s : SessionState) (bytes : List Nat) (now : ℚ)
    (hctx : s.outputContext = true) (hne : bytes ≠ []) (hev : bytes.length % 2 = 0) :
    (onmessage s { audioData := some bytes, interrupted := true } now).1.scheduledSources = [] ∧
    (onmessage s { audioData := some bytes, interrupted := true } now).1.isSpeaking = false ∧
    (onmessage s { audioData := some bytes, interrupted := true } now).1.nextStartTime = 0 ∧
    (onmessage s { audioData := some bytes, interrupted := true } now).2
      = Action.startNode s.nextNodeId (max s.nextStartTime now) (chunkDuration bytes)
        :: ((s.scheduledSources ++
              [SourceNode.mk s.nextNodeId (max s.nextStartTime now)
                 (chunkDuration bytes)]).map (fun n => Action.stopNode n.id)) ∧
    Action.stopNode s.nextNodeId
      ∈ (onmessage s { audioData := some bytes, interrupted := true } now).2 := by
  rw [onmessage_audio_interrupt _ _ _ hne hctx, handleAudio_even _ _ _ hev]
  refine ⟨rfl, rfl, rfl, ?_, ?_⟩
  · simp [interruptPlayback]
  · simp [interruptPlayback]

/-! ## Claim C1 -/

theorem startsOf_append (a b : List Action) :
    startsOf (a ++ b) = startsOf a ++ startsOf b := by
  simp [startsOf]

/-- Reduction of `onmessage` on an audio message whose payload is falsy or
whose output context is gone: the audio branch is skipped. -/
theorem onmessage_audio_skip (s : SessionState) (bytes : List Nat) (now : ℚ)
    (h : ¬ (bytes ≠ [] ∧ s.outputContext = true)) :
    onmessage s { audioData := some bytes, interrupted := false } now = (s, []) := by
  simp only [onmessage]
  rw [if_neg h]
  simp

theorem backToBack_chain (nst : ℚ) (chunks : List (List Nat × ℚ)) :
    List.Chain' (fun p q : ℚ × ℚ => q.1 = p.1 + p.2) (backToBack nst chunks) := by
  induction chunks generalizing nst with
  | nil => simp [backToBack]
  | cons c rest ih =>
    obtain ⟨bytes, t⟩ := c
    cases rest with
    | nil => simp [backToBack]
    | cons d rest2 =>
      obtain ⟨b2, t2⟩ := d
      rw [backToBack, backToBack, List.chain'_cons]
      refine ⟨rfl, ?_⟩
      have h := ih (nst + chunkDuration bytes)
      rw [backToBack] at h
      exact h

/-- Main induction for claim C1: while every chunk arrives before the
timeline position is reached, the timeline advances by exactly the total
duration and the emitted starts are the gapless back-to-back schedule. -/
theorem enqueueAll_early : ∀ (chunks : List (List Nat × ℚ)) (s : SessionState),
    s.outputContext = true →
    (∀ c ∈ chunks, c.1 ≠ [] ∧ c.1.length % 2 = 0) →
    arrivesEarly s.nextStartTime chunks = true →
    (enqueueAll s chunks).1.nextStartTime
      = s.nextStartTime + (chunks.map (fun c => chunkDuration c.1)).sum ∧
    startsOf (enqueueAll s chunks).2 = backToBack s.nextStartTime chunks := by
  intro chunks
  induction chunks with
  | nil => intro s _ _ _; simp [enqueueAll, startsOf, backToBack]
  | cons c rest ih =>
    intro s hctx hvalid hearly
    obtain ⟨bytes, t⟩ := c
    obtain ⟨hne, hev⟩ := hvalid _ (List.mem_cons_self _ _)
    rw [arrivesEarly, Bool.and_eq_true, decide_eq_true_eq] at hearly
    obtain ⟨ht, hrest⟩ := hearly
    have hstep := handleAudio_even s bytes t hev
    rw [max_eq_left ht] at hstep
    have hmsg := onmessage_audio s bytes t hne hctx
    rw [hstep] at hmsg
    have ihr := ih { s with
        isSpeaking := true
        scheduledSources := s.scheduledSources ++
          [SourceNode.mk s.nextNodeId s.nextStartTime (chunkDuration bytes)]
        nextStartTime := s.nextStartTime + chunkDuration bytes
        nextNodeId := s.nextNodeId + 1 } hctx
      (fun c hc => hvalid c (List.mem_cons_of_mem _ hc)) hrest
    rw [enqueueAll, hmsg]
    dsimp only
    constructor
    · rw [ihr.1]
      dsimp only
      rw [List.map_cons, List.sum_cons, add_assoc]
    · rw [startsOf_append, ihr.2, backToBack]
      dsimp only
      simp [startsOf]

/-- Claim C1: while the output clock lags the timeline, every decoded
buffer is scheduled to start exactly where the previous one ends — the
starts form the gapless back-to-back schedule beginning at the current
`nextStartTime` (so the first chunk starts there), consecutive starts
satisfy start(i+1) = start(i) + d(i), and the final `nextStartTime` is the
first start plus the sum of the durations, independent of the arrival
clock readings. -/
theorem C1_gapless_backpressure (s : SessionState) (chunks : List (List Nat × ℚ))
    (hctx : s.outputContext = true)
    (hvalid : ∀ c ∈ chunks, c.1 ≠ [] ∧ c.1.length % 2 = 0)
    (hearly : arrivesEarly s.nextStartTime chunks = true) :
    (enqueueAll s chunks).1.nextStartTime
      = s.nextStartTime + (chunks.map (fun c => chunkDuration c.1)).sum ∧
    startsOf (enqueueAll s chunks).2 = backToBack s.nextStartTime chunks ∧
    List.Chain' (fun p q : ℚ × ℚ => q.1 = p.1 + p.2)
      (startsOf (enqueueAll s chunks).2) := by
  obtain ⟨h1, h2⟩ := enqueueAll_early chunks s hctx hvalid hearly
  exact ⟨h1, h2, h2 ▸ backToBack_chain s.nextStartTime chunks⟩

/-! ## Claim C5 -/

/-- While the output context exists, the starts emitted by the session
depend only on the timeline position. -/
theorem enqueueAll_starts : ∀ (chunks : List (List Nat × ℚ)) (s : SessionState),
    s.outputContext = true →
    startsOf (enqueueAll s chunks).2 = scheduleStarts s.nextStartTime chunks := by
  intro chunks
  induction chunks with
  | nil => intro s _; rfl
  | cons c rest ih =>
    intro s hctx
    obtain ⟨bytes, t⟩ := c
    by_cases hne : bytes = []
    · subst hne
      rw [enqueueAll]
      dsimp only
      rw [onmessage_audio_skip s [] t (by simp)]
      dsimp only
      rw [scheduleStarts, if_pos rfl, List.nil_append]
      exact ih s hctx
    · rcases Nat.mod_two_eq_zero_or_one bytes.length with hev | hodd
      · rw [enqueueAll]
        dsimp only
        rw [onmessage_audio s bytes t hne hctx, handleAudio_even s bytes t hev]
        dsimp only
        rw [startsOf_append]
        have hr := ih { s with
            isSpeaking := true
            scheduledSources := s.scheduledSources ++
              [SourceNode.mk s.nextNodeId (max s.nextStartTime t) (chunkDuration bytes)]
            nextStartTime := max s.nextStartTime t + chunkDuration bytes
            nextNodeId := s.nextNodeId + 1 } hctx
        rw [hr]
        dsimp only
        rw [scheduleStarts, if_neg hne, if_pos hev]
        simp [startsOf]
      · rw [enqueueAll]
        dsimp only
        rw [onmessage_audio s bytes t hne hctx, handleAudio_odd s bytes t hodd]
        dsimp only
        have hr := ih { s with
            isSpeaking := true
            nextStartTime := max s.nextStartTime t } hctx
        rw [List.nil_append, hr]
        dsimp only
        rw [scheduleStarts, if_neg hne, if_neg (by omega)]

/-- Clamping the timeline to an output-clock reading that every later
arrival dominates does not change any later start. -/
theorem scheduleStarts_bump : ∀ (chunks : List (List Nat × ℚ)) (nst t1 : ℚ),
    (∀ c ∈ chunks, t1 ≤ c.2) →
    scheduleStarts (max nst t1) chunks = scheduleStarts nst chunks := by
  intro chunks
  induction chunks with
  | nil => intro nst t1 _; rfl
  | cons c rest ih =>
    intro nst t1 hmono
    obtain ⟨bytes, t⟩ := c
    have ht1 : t1 ≤ t := hmono _ (List.mem_cons_self _ _)
    have hrest : ∀ c ∈ rest, t1 ≤ c.2 := fun c hc => hmono c (List.mem_cons_of_mem _ hc)
    have hmax : max (max nst t1) t = max nst t := by
      rw [max_assoc, max_eq_right ht1]
    rw [scheduleStarts, scheduleStarts]
    by_cases hne : bytes = []
    · rw [if_pos hne, if_pos hne]
      exact ih nst t1 hrest
    · rcases Nat.mod_two_eq_zero_or_one bytes.length with hev | hodd
      · rw [if_neg hne, if_neg hne, if_pos hev, if_pos hev, hmax]
      · rw [if_neg hne, if_neg hne, if_neg (by omega), if_neg (by omega), hmax]

/-- Claim C5: a corrupt chunk is swallowed — the message that carries it
performs no effect (no node is started) — and every subsequent chunk is
scheduled at exactly the start it would have had if the corrupt chunk had
never arrived, given that the output clock is monotone (later arrivals
read a clock at least as large). -/
theorem C5_corrupt_chunk_harmless (s : SessionState) (bad : List Nat) (t1 : ℚ)
    (chunks : List (List Nat × ℚ))
    (hctx : s.outputContext = true) (hne : bad ≠ []) (hodd : bad.length % 2 = 1)
    (hmono : ∀ c ∈ chunks, t1 ≤ c.2) :
    (onmessage s { audioData := some bad, interrupted := false } t1).2 = [] ∧
    startsOf (enqueueAll
        (onmessage s { audioData := some bad, interrupted := false } t1).1 chunks).2
      = startsOf (enqueueAll s chunks).2 := by
  have hbad := onmessage_audio s bad t1 hne hctx
  rw [handleAudio_odd s bad t1 hodd] at hbad
  constructor
  · rw [hbad]
  · rw [hbad]
    dsimp only
    rw [enqueueAll_starts chunks { s with
          isSpeaking := true
          nextStartTime := max s.nextStartTime t1 } hctx]
    dsimp only
    rw [enqueueAll_starts chunks s hctx]
    exact scheduleStarts_bump chunks s.nextStartTime t1 hmono

/-! ## Claim C8 -/

theorem quantize_bounds (x : ℚ) : -32768 ≤ quantize x ∧ quantize x ≤ 32767 := by
  unfold quantize
  exact ⟨le_max_left _ _, max_le (by norm_num) (min_le_left _ _)⟩

theorem int16OfLe_encodeSample (i : ℤ) (h1 : -32768 ≤ i) (h2 : i ≤ 32767) :
    int16OfLe (toTwos i % 256) (toTwos i / 256) = i := by
  simp only [int16OfLe, toTwos]
  split <;> omega

theorem decodePairs_blob : ∀ samples : List ℚ,
    decodePairs (createPcmBlob samples) = samples.map quantize := by
  intro samples
  induction samples with
  | nil => rfl
  | cons x rest ih =>
    have hb := quantize_bounds x
    have hblob : createPcmBlob (x :: rest)
        = toTwos (quantize x) % 256 :: toTwos (quantize x) / 256 :: createPcmBlob rest := by
      simp [createPcmBlob, encodeSample]
    rw [hblob, decodePairs, int16OfLe_encodeSample _ hb.1 hb.2, ih, List.map_cons]

theorem createPcmBlob_length (samples : List ℚ) :
    (createPcmBlob samples).length = 2 * samples.length := by
  induction samples with
  | nil => rfl
  | cons x rest ih =>
    have hblob : createPcmBlob (x :: rest) = encodeSample x ++ createPcmBlob rest := by
      simp [createPcmBlob]
    rw [hblob, List.length_append, ih]
    simp [encodeSample]
    omega

theorem quantize_error (x : ℚ) (h1 : -1 ≤ x) (h2 : x ≤ 1) :
    |x - (quantize x : ℚ) / 32768| ≤ 1 / 32768 := by
  have hc : clampSample x = x := by
    unfold clampSample
    rw [min_eq_right h2, max_eq_right h1]
  unfold quantize
  rw [hc]
  have hfl : (⌊x * 32768⌋ : ℚ) ≤ x * 32768 := Int.floor_le _
  have hfu : x * 32768 < ⌊x * 32768⌋ + 1 := Int.lt_floor_add_one _
  have hlow : (-32768 : ℤ) ≤ ⌊x * 32768⌋ := by
    apply Int.le_floor.mpr
    push_cast
    nlinarith
  have hup : ⌊x * 32768⌋ ≤ 32768 := by
    have hx : x * 32768 ≤ 32768 := by nlinarith
    have h := Int.floor_le_floor hx
    simpa using h
  rw [max_eq_right (le_min (by norm_num) hlow)]
  rcases le_or_lt ⌊x * 32768⌋ 32767 with hle | hgt
  · rw [min_eq_right hle, abs_le]
    constructor
    · linarith
    · linarith
  · have hfeq : ⌊x * 32768⌋ = 32768 := le_antisymm hup hgt
    rw [hfeq, min_eq_left (by norm_num)]
    have hxg : (32768 : ℚ) ≤ x * 32768 := by
      have hc2 : ((32768 : ℤ) : ℚ) ≤ x * 32768 := hfeq ▸ hfl
      push_cast at hc2
      linarith
    have hx1 : x = 1 := le_antisymm h2 (by linarith)
    rw [hx1, abs_le]
    constructor
    · push_cast
      norm_num
    · push_cast
      norm_num

/-- Claim C8 (the codec lives in `utils/audio`, which is absent from the
sources, so both directions are modelled from the spec, §4.1-4.2): for a
frame whose samples lie in [-1, 1], decoding the encoded frame succeeds
and recovers each sample within the 16-bit quantization error 1/32768,
and encoding is deterministic — equal frames encode identically. -/
theorem C8_roundtrip_quantization (samples : List ℚ)
    (hb : ∀ x ∈ samples, -1 ≤ x ∧ x ≤ 1) :
    decodeAudioData (createPcmBlob samples)
      = some (samples.map (fun x => (quantize x : ℚ) / 32768)) ∧
    (∀ x ∈ samples, |x - (quantize x : ℚ) / 32768| ≤ 1 / 32768) ∧
    (∀ other : List ℚ, other = samples → createPcmBlob other = createPcmBlob samples) := by
  refine ⟨?_, ?_, ?_⟩
  · rw [decodeAudioData_even (by rw [createPcmBlob_length]; omega)]
    rw [decodePairs_blob, List.map_map]
    rfl
  · intro x hx
    exact quantize_error x (hb x hx).1 (hb x hx).2
  · intro o ho
    rw [ho]

/-- Witness for claim C8 at the concrete frame [0, 1/2, -1, 1]. -/
theorem C8_roundtrip_quantization_witness :
    decodeAudioData (createPcmBlob [0, 1/2, -1, 1])
      = some ([0, 1/2, -1, (1:ℚ)].map (fun x => (quantize x : ℚ) / 32768)) ∧
    (∀ x ∈ [0, 1/2, -1, (1:ℚ)], |x - (quantize x : ℚ) / 32768| ≤ 1 / 32768) := by
  have h := C8_roundtrip_quantization [0, 1/2, -1, 1]
    (by intro x hx; fin_cases hx <;> norm_num)
  exact ⟨h.1, h.2.1⟩

/-! ## Claims C4 and C7: reachable-state invariants -/

theorem handleAudio_speaking (s : SessionState) (bytes : List Nat) (now : ℚ) :
    (handleAudio s bytes now).1.isSpeaking = true := by
  unfold handleAudio
  rcases hdec : decodeAudioData bytes with _ | samples <;> rfl

theorem handleAudio_volume (s : SessionState) (bytes : List Nat) (now : ℚ) :
    (handleAudio s bytes now).1.volume = s.volume := by
  unfold handleAudio
  rcases hdec : decodeAudioData bytes with _ | samples <;> rfl

theorem onmessage_volume (s : SessionState) (m : ServerMessage) (t : ℚ) :
    (onmessage s m t).1.volume = s.volume := by
  obtain ⟨maud, mint⟩ := m
  cases maud with
  | none => cases mint <;> rfl
  | some bytes =>
    by_cases hg : bytes ≠ [] ∧ s.outputContext = true
    · cases mint with
      | false =>
        show (onmessage s { audioData := some bytes, interrupted := false } t).1.volume
          = s.volume
        rw [onmessage_audio s bytes t hg.1 hg.2]
        exact handleAudio_volume s bytes t
      | true =>
        show (interruptPlayback (if bytes ≠ [] ∧ s.outputContext = true
            then handleAudio s bytes t else (s, [])).1).1.volume = s.volume
        rw [if_pos hg]
        exact handleAudio_volume s bytes t
    · cases mint with
      | false =>
        show (onmessage s { audioData := some bytes, interrupted := false } t).1.volume
          = s.volume
        rw [onmessage_audio_skip s bytes t hg]
      | true =>
        show (interruptPlayback (if bytes ≠ [] ∧ s.outputContext = true
            then handleAudio s bytes t else (s, [])).1).1.volume = s.volume
        rw [if_neg hg]
        rfl

theorem onopen_isSpeaking (s : SessionState) : (onopen s).isSpeaking = s.isSpeaking := by
  unfold onopen
  dsimp only
  split <;> rfl

theorem onopen_scheduledSources (s : SessionState) :
    (onopen s).scheduledSources = s.scheduledSources := by
  unfold onopen
  dsimp only
  split <;> rfl

theorem onopen_volume (s : SessionState) : (onopen s).volume = s.volume := by
  unfold onopen
  dsimp only
  split <;> rfl

theorem openState_reachable : Reachable openState :=
  Reachable.succ (Reachable.succ Reachable.init trivial) trivial

theorem corruptChunkState_reachable : Reachable corruptChunkState :=
  Reachable.succ openState_reachable (le_refl 0)

theorem speakingState_reachable : Reachable speakingState :=
  Reachable.succ openState_reachable (le_refl 0)

/-- Claim C4 is refuted by the code: `setIsSpeaking(true)` runs before the
chunk is decoded, so a failed decode leaves a reachable state whose
speaking flag is true while the scheduled set is empty — the biconditional
between the two fails. -/
theorem C4_counterexample :
    ¬ (∀ s : SessionState, Reachable s →
        (s.isSpeaking = true ↔ s.scheduledSources ≠ [])) := by
  intro h
  have h2 := (h corruptChunkState corruptChunkState_reachable).mp (by decide)
  exact h2 (by decide)

/-- Claim C4 amended: in every reachable state, a non-empty scheduled set
implies the speaking flag is true (the converse direction fails, see the
counterexample: a failed decode raises the flag with an empty set). -/
theorem C4_amended_nonempty_speaking :
    ∀ s : SessionState, Reachable s → s.scheduledSources ≠ [] → s.isSpeaking = true := by
  intro s hr
  induction hr with
  | init => intro h; exact absurd rfl h
  | succ hr hok ih =>
    rename_i s0 e
    cases e with
    | connectEvt k g =>
      cases k with
      | none => intro h; exact ih h
      | some key =>
        cases g with
        | true => intro h; exact ih h
        | false => intro h; exact absurd rfl h
    | openEvt =>
      intro h
      have hspk : (step s0 Event.openEvt).isSpeaking = s0.isSpeaking :=
        onopen_isSpeaking s0
      have hsrc : (step s0 Event.openEvt).scheduledSources = s0.scheduledSources :=
        onopen_scheduledSources s0
      rw [hspk]
      rw [hsrc] at h
      exact ih h
    | messageEvt m t =>
      obtain ⟨maud, mint⟩ := m
      cases mint with
      | true => intro h; exact absurd rfl h
      | false =>
        cases maud with
        | none => intro h; exact ih h
        | some bytes =>
          by_cases hg : bytes ≠ [] ∧ s0.outputContext = true
          · intro h
            show (onmessage s0 { audioData := some bytes, interrupted := false } t).1.isSpeaking
              = true
            rw [onmessage_audio s0 bytes t hg.1 hg.2]
            exact handleAudio_speaking s0 bytes t
          · intro h
            have h1 : step s0 (Event.messageEvt
                { audioData := some bytes, interrupted := false } t) = s0 := by
              show (onmessage s0 { audioData := some bytes, interrupted := false } t).1 = s0
              rw [onmessage_audio_skip s0 bytes t hg]
            rw [h1] at h ⊢
            exact ih h
    | audioBlock samples rms => intro h; exact ih h
    | endedEvt n =>
      intro h
      by_cases hrest : (s0.scheduledSources.filter (fun nd => nd.id ≠ n)).isEmpty = true
      · exfalso
        apply h
        show s0.scheduledSources.filter (fun nd => nd.id ≠ n) = []
        exact List.isEmpty_iff.mp hrest
      · show (if (s0.scheduledSources.filter (fun nd => nd.id ≠ n)).isEmpty = true
            then false else s0.isSpeaking) = true
        rw [if_neg hrest]
        apply ih
        intro hnil
        apply hrest
        rw [List.isEmpty_iff]
        rw [hnil]
        rfl
    | closeEvt => intro h; exact absurd rfl h
    | errorEvt => intro h; exact absurd rfl h
    | disconnectEvt => intro h; exact absurd rfl h

/-- Witness for the amended claim C4 at a concrete reachable state with
one scheduled node. -/
theorem C4_amended_witness :
    speakingState.scheduledSources ≠ [] ∧ speakingState.isSpeaking = true :=
  ⟨by decide, C4_amended_nonempty_speaking speakingState speakingState_reachable (by decide)⟩

/-! ## Claim C7 -/

theorem sumSquares_replicate_one (n : Nat) :
    sumSquares (List.replicate n (1 : ℚ)) = n := by
  unfold sumSquares
  simp [List.map_replicate, List.sum_replicate]

theorem loudState_reachable : Reachable loudState := by
  refine Reachable.succ openState_reachable ?_
  refine ⟨by decide, by norm_num, ?_, by rw [List.length_replicate], ?_⟩
  · rw [sumSquares_replicate_one, List.length_replicate]
    norm_num
  · intro x hx
    rw [List.eq_of_mem_replicate hx]
    norm_num

theorem loudState_volume : loudState.volume = 2 := by
  have h : loudState.volume = max (1/10) (openState.volume * (8/10) + 1 * 2) := rfl
  have h0 : openState.volume = 0 := rfl
  rw [h, h0]
  rw [show (0 : ℚ) * (8/10) + 1 * 2 = 2 by norm_num]
  rw [max_eq_right (by norm_num : (1 : ℚ)/10 ≤ 2)]

/-- Claim C7 is refuted by the code: the update
`Math.max(0.1, prev * 0.8 + rms * 2)` is not clamped above, so one
full-scale block (RMS 1) drives the exposed volume to 2, outside [0, 1],
in a reachable state. -/
theorem C7_counterexample :
    ¬ (∀ s : SessionState, Reachable s → 0 ≤ s.volume ∧ s.volume ≤ 1) := by
  intro h
  have h2 := (h loudState loudState_reachable).2
  rw [loudState_volume] at h2
  norm_num at h2

theorem rms_le_one {samples : List ℚ} {rms : ℚ} (h0 : 0 ≤ rms)
    (hsq : rms * rms * (samples.length : ℚ) = sumSquares samples)
    (hlen : samples.length = 4096)
    (hb : ∀ x ∈ samples, -1 ≤ x ∧ x ≤ 1) : rms ≤ 1 := by
  have hsum : sumSquares samples ≤ (samples.length : ℚ) := by
    unfold sumSquares
    calc (samples.map fun x => x * x).sum
        ≤ (samples.map fun _ => (1 : ℚ)).sum := by
          apply List.sum_le_sum
          intro i hi
          have hbi := hb i hi
          nlinarith
      _ = (samples.length : ℚ) := by
          simp [List.map_const]
  have hlenq : (samples.length : ℚ) = 4096 := by
    rw [hlen]
    norm_num
  rw [hlenq] at hsq hsum
  nlinarith [sq_nonneg (rms - 1), h0]

/-- Claim C7 amended: the volume estimate is nonnegative and below 10 in
every reachable state (the claimed interval [0, 1] is too tight, see the
counterexample), on every captured block it becomes
max(0.1, 0.8 * previous + 2 * rms), and hence right after any block
update it never reads below the 0.1 floor. -/
theorem C7_amended_volume_bounds :
    (∀ s : SessionState, Reachable s → 0 ≤ s.volume ∧ s.volume < 10) ∧
    (∀ (s : SessionState) (samples : List ℚ) (rms : ℚ),
      (step s (Event.audioBlock samples rms)).volume
        = max (1/10) (s.volume * (8/10) + rms * 2)) ∧
    (∀ (s : SessionState) (samples : List ℚ) (rms : ℚ),
      1/10 ≤ (step s (Event.audioBlock samples rms)).volume) := by
  refine ⟨?_, fun s samples rms => rfl, fun s samples rms => le_max_left _ _⟩
  intro s hr
  induction hr with
  | init => norm_num [initialState]
  | succ hr hok ih =>
    rename_i s0 e
    cases e with
    | connectEvt k g =>
      cases k with
      | none => exact ih
      | some key =>
        cases g with
        | true => exact ih
        | false =>
          show (0 : ℚ) ≤ 0 ∧ (0 : ℚ) < 10
          norm_num
    | openEvt =>
      have hv : (step s0 Event.openEvt).volume = s0.volume := onopen_volume s0
      rw [hv]
      exact ih
    | messageEvt m t =>
      have hv : (step s0 (Event.messageEvt m t)).volume = s0.volume :=
        onmessage_volume s0 m t
      rw [hv]
      exact ih
    | audioBlock samples rms =>
      obtain ⟨hproc, hrms0, hrms, hlen, hbnd⟩ := hok
      have hrms1 : rms ≤ 1 := rms_le_one hrms0 hrms hlen hbnd
      show 0 ≤ max (1/10) (s0.volume * (8/10) + rms * 2)
        ∧ max (1/10) (s0.volume * (8/10) + rms * 2) < 10
      constructor
      · exact le_trans (by norm_num) (le_max_left _ _)
      · apply max_lt
        · norm_num
        · nlinarith [ih.1, ih.2]
    | endedEvt n => exact ih
    | closeEvt =>
      show (0 : ℚ) ≤ 0 ∧ (0 : ℚ) < 10
      norm_num
    | errorEvt =>
      show (0 : ℚ) ≤ 0 ∧ (0 : ℚ) < 10
      norm_num
    | disconnectEvt =>
      show (0 : ℚ) ≤ 0 ∧ (0 : ℚ) < 10
      norm_num

/-- Witness for the amended claim C7: the invariant at the initial state
and the update shape at a concrete block. -/
theorem C7_amended_volume_bounds_witness :
    (0 ≤ initialState.volume ∧ initialState.volume < 10) ∧
    (step initialState (Event.audioBlock [] 0)).volume
      = max (1/10) (initialState.volume * (8/10) + 0 * 2) ∧
    1/10 ≤ (step initialState (Event.audioBlock [] 0)).volume :=
  ⟨C7_amended_volume_bounds.1 initialState Reachable.init,
   C7_amended_volume_bounds.2.1 initialState [] 0,
   C7_amended_volume_bounds.2.2 initialState [] 0⟩

/-! ## Witnesses for the scheduling claims -/

/-- Witness for claim C1: two back-to-back chunks enqueued into the open
state while the clock stays at 0. -/
theorem C1_gapless_backpressure_witness :
    (enqueueAll openState [([0, 0], 0), ([0, 0, 0, 0], 0)]).1.nextStartTime
      = openState.nextStartTime
        + ([(([0, 0] : List Nat), (0 : ℚ)), ([0, 0, 0, 0], 0)].map
            (fun c => chunkDuration c.1)).sum ∧
    startsOf (enqueueAll openState [([0, 0], 0), ([0, 0, 0, 0], 0)]).2
      = backToBack openState.nextStartTime [([0, 0], 0), ([0, 0, 0, 0], 0)] ∧
    List.Chain' (fun p q : ℚ × ℚ => q.1 = p.1 + p.2)
      (startsOf (enqueueAll openState [([0, 0], 0), ([0, 0, 0, 0], 0)]).2) :=
  C1_gapless_backpressure openState [([0, 0], 0), ([0, 0, 0, 0], 0)] (by decide) (by decide)
    (by show arrivesEarly 0 [([0, 0], 0), ([0, 0, 0, 0], 0)] = true
        norm_num [arrivesEarly, chunkDuration])

/-- Witness for claim C3: interrupting the state holding one scheduled
node, then enqueueing a fresh chunk at clock reading 7. -/
theorem C3_interrupt_resets_witness :
    (onmessage speakingState { audioData := none, interrupted := true } 5).1.scheduledSources
      = [] ∧
    (onmessage speakingState { audioData := none, interrupted := true } 5).1.isSpeaking
      = false ∧
    (onmessage speakingState { audioData := none, interrupted := true } 5).1.nextStartTime
      = 0 ∧
    (onmessage speakingState { audioData := none, interrupted := true } 5).2
      = speakingState.scheduledSources.map (fun n => Action.stopNode n.id) ∧
    startsOf (onmessage
        (onmessage speakingState { audioData := none, interrupted := true } 5).1
        { audioData := some [0, 0], interrupted := false } 7).2
      = [(7, chunkDuration [0, 0])] := by
  have h := C3_interrupt_resets speakingState 5
  exact ⟨h.1, h.2.1, h.2.2.1, h.2.2.2.1,
    h.2.2.2.2 [0, 0] 7 (by decide) (by decide) (by decide) (by norm_num)⟩

/-- Witness for claim C5: a corrupt one-byte chunk at clock 0 followed by
a valid chunk at clock 1 in the open state. -/
theorem C5_corrupt_chunk_harmless_witness :
    (onmessage openState { audioData := some [0], interrupted := false } 0).2 = [] ∧
    startsOf (enqueueAll
        (onmessage openState { audioData := some [0], interrupted := false } 0).1
        [([0, 0], 1)]).2
      = startsOf (enqueueAll openState [([0, 0], 1)]).2 :=
  C5_corrupt_chunk_harmless openState [0] 0 [([0, 0], 1)]
    (by decide) (by decide) (by decide)
    (by intro c hc; fin_cases hc; norm_num)

/-- Witness for claim C10: a combined audio-plus-interrupt message hitting
the state that already holds one scheduled node. -/
theorem C10_audio_then_interrupt_witness :
    (onmessage speakingState { audioData := some [0, 0], interrupted := true } 3).1.scheduledSources
      = [] ∧
    (onmessage speakingState { audioData := some [0, 0], interrupted := true } 3).1.isSpeaking
      = false ∧
    (onmessage speakingState { audioData := some [0, 0], interrupted := true } 3).1.nextStartTime
      = 0 ∧
    (onmessage speakingState { audioData := some [0, 0], interrupted := true } 3).2
      = Action.startNode speakingState.nextNodeId (max speakingState.nextStartTime 3)
          (chunkDuration [0, 0])
        :: ((speakingState.scheduledSources ++
              [SourceNode.mk speakingState.nextNodeId (max speakingState.nextStartTime 3)
                 (chunkDuration [0, 0])]).map (fun n => Action.stopNode n.id)) ∧
    Action.stopNode speakingState.nextNodeId
      ∈ (onmessage speakingState { audioData := some [0, 0], interrupted := true } 3).2 :=
  C10_audio_then_interrupt speakingState [0, 0] 3 (by decide) (by decide) (by decide)

end RoseVoice
